import Mathlib

/-!
Verification of the CasitaPMS dynamic pricing cascade engine
(`casita_pms.py`), shallowly embedded in Lean 4.

Modelling conventions:
* SQLite rows become Lean structures; nullable columns become `Option ℚ`
  (prices, modifiers) or `Option String`.
* Python float arithmetic is idealised as exact rational arithmetic (ℚ);
  `round(x, 2)` becomes exact round-half-to-even at two decimals (`round2`).
* Dates are proleptic-Gregorian day ordinals (`Int`), so ISO-string
  comparison in SQL corresponds to `≤` on ordinals, and Python's
  `date.weekday()` (Monday = 0, ordinal 1 = a Monday) is `(d - 1) % 7`.
* `date.today()` is passed explicitly as a `today : Int` parameter.
* A Python `None` return becomes `Option`; an uncaught runtime `TypeError`
  (e.g. arithmetic on a non-numeric rule value) becomes
  `Except.error PmsError.typeError`.
* Python truthiness `x or d` on a nullable numeric (both `None` and `0`
  are falsy) is `pyOr`.
-/

/- Batteries marks the `Rat` arithmetic operations `@[irreducible]`, which
stops `decide` and `rfl` from evaluating concrete rational computations.
Restore the default reducibility for this development: the kernel ignores
reducibility attributes, so proofs are unaffected. -/
set_option allowUnsafeReducibility true

attribute [local semireducible] Rat.add Rat.mul Rat.inv Rat.sub Rat.neg Rat.div Rat.ofScientific

/-- Python builtin `max(a, b)`: returns `b` only when it is strictly
larger. -/
def pyMax (a b : ℚ) : ℚ := if a < b then b else a

/-- Python builtin `min(a, b)`: returns `b` only when it is strictly
smaller. -/
def pyMin (a b : ℚ) : ℚ := if b < a then b else a

/-- Python `x or d` for a nullable numeric value: `None` and `0` are falsy. -/
def pyOr (v : Option ℚ) (d : ℚ) : ℚ :=
  match v with
  | none => d
  | some x => if x = 0 then d else x

/-- A value stored in a rule's `adjustment_value` column: either a proper
number or malformed non-numeric junk (SQLite is dynamically typed, so a
string can sit in a REAL column; arithmetic on it raises `TypeError`). -/
inductive AdjVal where
  | num : ℚ → AdjVal
  | text : AdjVal
deriving DecidableEq, Repr

/-- Whether an `adjustment_value` is numeric. -/
def AdjVal.isNum : AdjVal → Bool
  | .num _ => true
  | .text => false

/-- SQLite ORDER BY ordering on `adjustment_value`: numeric values by
magnitude, and TEXT sorts above all numerics. -/
def AdjVal.leB : AdjVal → AdjVal → Bool
  | .num a, .num b => decide (a ≤ b)
  | .num _, .text => true
  | .text, .num _ => false
  | .text, .text => true

/-- Runtime failure of the Python code: an uncaught `TypeError` from
arithmetic on a malformed (non-numeric) rule value. -/
inductive PmsError where
  | typeError : PmsError
deriving DecidableEq, Repr

/-- Round-half-to-even to an integer (Python's `round` on exact values). -/
def rhe (q : ℚ) : ℤ :=
  if q - ⌊q⌋ < 1/2 then ⌊q⌋
  else if 1/2 < q - ⌊q⌋ then ⌊q⌋ + 1
  else if ⌊q⌋ % 2 = 0 then ⌊q⌋ else ⌊q⌋ + 1

/-- Python `round(x, 2)` idealised on rationals: round-half-to-even at two
decimal places. -/
def round2 (q : ℚ) : ℚ := (rhe (100 * q) : ℚ) / 100

/-- Row of the `properties` table (columns the pricing engine reads). -/
structure PropertyRow where
  id : Nat
  base_price : Option ℚ
  min_price : Option ℚ
  max_price : Option ℚ
deriving DecidableEq, Repr

/-- Row of the `units` table (columns the pricing engine reads). -/
structure UnitRow where
  id : Nat
  property_id : Nat
  unit_name : String
  inherit_parent_pricing : Bool
  price_modifier : Option ℚ
  price_modifier_type : String
  custom_base_price : Option ℚ
  is_active : Bool
deriving DecidableEq, Repr

/-- Row of the `seasonal_pricing` table. -/
structure SeasonalRule where
  property_id : Nat
  start_date : Int
  end_date : Int
  adjustment_type : String
  adjustment_value : AdjVal
deriving DecidableEq, Repr

/-- Row of the `day_of_week_pricing` table. -/
structure DayOfWeekRule where
  property_id : Nat
  day_of_week : Int
  adjustment_type : String
  adjustment_value : AdjVal
deriving DecidableEq, Repr

/-- Row of the `last_minute_pricing` table. -/
structure LastMinuteRule where
  property_id : Nat
  days_before_checkin : Int
  adjustment_type : String
  adjustment_value : AdjVal
deriving DecidableEq, Repr

/-- Row of the `reservations` table (columns `create_reservation` writes;
optional pass-through attributes are omitted). -/
structure Reservation where
  id : Nat
  unit_id : Nat
  check_in : Int
  check_out : Int
  nights : Int
  total_price : ℚ
deriving DecidableEq, Repr

/-- Row of the `pricing_calendar` table. -/
structure CalendarEntry where
  unit_id : Nat
  calendar_date : Int
  base_price : Option ℚ
  is_available : Bool
  is_blocked : Bool
  block_reason : Option String
deriving DecidableEq, Repr

/-- The SQLite database state the engine reads and writes.
`next_reservation_id` models sqlite's `lastrowid` for `reservations`. -/
structure PMSState where
  properties : List PropertyRow
  units : List UnitRow
  seasonal_pricing : List SeasonalRule
  day_of_week_pricing : List DayOfWeekRule
  last_minute_pricing : List LastMinuteRule
  reservations : List Reservation
  pricing_calendar : List CalendarEntry
  next_reservation_id : Nat
deriving DecidableEq, Repr

/-- Decidable equality of `Except` results, for evaluating the engine on
concrete database states. -/
instance {ε α : Type} [DecidableEq ε] [DecidableEq α] :
    DecidableEq (Except ε α) := fun x y =>
  match x, y with
  | .ok a, .ok b =>
    if h : a = b then isTrue (by rw [h])
    else isFalse (by intro hc; cases hc; exact h rfl)
  | .error e, .error f =>
    if h : e = f then isTrue (by rw [h])
    else isFalse (by intro hc; cases hc; exact h rfl)
  | .ok a, .error f => isFalse (by intro hc; cases hc)
  | .error e, .ok b => isFalse (by intro hc; cases hc)

/-- `SELECT * FROM properties WHERE id = ?` (ids are unique). -/
def lookupProperty (st : PMSState) (pid : Nat) : Option PropertyRow :=
  st.properties.find? (fun p => p.id == pid)

/-- `SELECT * FROM units WHERE id = ?` (ids are unique). -/
def lookupUnit (st : PMSState) (uid : Nat) : Option UnitRow :=
  st.units.find? (fun u => u.id == uid)

/-- Python `date.weekday()` on a proleptic-Gregorian ordinal
(ordinal 1 = 0001-01-01, a Monday; Monday = 0). -/
def weekday (d : Int) : Int := (d - 1) % 7

/-- Calendar horizon defaults of class `CasitaPMS`. -/
def DEFAULT_CALENDAR_DAYS : Int := 365

/-- Hard cap of the pricing calendar: up to 2 years. -/
def MAX_CALENDAR_DAYS : Int := 730

/-- `SELECT ... ORDER BY key DESC/ASC LIMIT 1`: the fold keeps the current
best row and replaces it only when a later row is strictly better
(`le y best = false`), so the result is maximal for the total preorder
`le` and ties keep the earliest row. -/
def pickBest {α : Type} (le : α → α → Bool) : List α → Option α
  | [] => none
  | x :: xs => some (xs.foldl (fun best y => if le y best then best else y) x)

/-- Does a seasonal rule row match
`property_id = ? AND start_date <= ? AND end_date >= ?`
(dates compared as ISO strings, i.e. as day ordinals)? -/
def coversDate (r : SeasonalRule) (pid : Nat) (d : Int) : Bool :=
  r.property_id == pid && decide (r.start_date ≤ d) && decide (d ≤ r.end_date)

/-- `SELECT * FROM seasonal_pricing WHERE property_id = ? AND start_date <= ?
AND end_date >= ? ORDER BY adjustment_value DESC LIMIT 1`. -/
def selectSeasonal (rules : List SeasonalRule) (pid : Nat) (d : Int) :
    Option SeasonalRule :=
  pickBest (fun a b => AdjVal.leB a.adjustment_value b.adjustment_value)
    (rules.filter (fun r => coversDate r pid d))

/-- `SELECT * FROM day_of_week_pricing WHERE property_id = ? AND
day_of_week = ?` followed by `fetchone` (upsert semantics keep at most one
row per weekday per property). -/
def lookupDow (rules : List DayOfWeekRule) (pid : Nat) (wd : Int) :
    Option DayOfWeekRule :=
  rules.find? (fun r => r.property_id == pid && r.day_of_week == wd)

/-- Does a last-minute rule row match
`property_id = ? AND days_before_checkin >= ?`? -/
def lmMatches (r : LastMinuteRule) (pid : Nat) (days_until : Int) : Bool :=
  r.property_id == pid && decide (days_until ≤ r.days_before_checkin)

/-- `SELECT * FROM last_minute_pricing WHERE property_id = ? AND
days_before_checkin >= ? ORDER BY days_before_checkin ASC LIMIT 1`. -/
def selectLastMinute (rules : List LastMinuteRule) (pid : Nat)
    (days_until : Int) : Option LastMinuteRule :=
  pickBest (fun a b => decide (b.days_before_checkin ≤ a.days_before_checkin))
    (rules.filter (fun r => lmMatches r pid days_until))

/-- Lines 263-273 of `calculate_price`: resolve the unit's base price.
Inheriting: parent base (`or 0`) with the unit modifier applied
(`percent` multiplies, anything else adds); otherwise the unit's
`custom_base_price` (`or 0`). -/
def computeBase (u : UnitRow) (p : PropertyRow) : ℚ :=
  if u.inherit_parent_pricing then
    let base := pyOr p.base_price 0
    let modifier := pyOr u.price_modifier 0
    if u.price_modifier_type = "percent" then base * (1 + modifier / 100)
    else base + modifier
  else pyOr u.custom_base_price 0

/-- Amount contributed by a seasonal or day-of-week rule: percent rules
scale the base, other rules contribute the raw value. A non-numeric value
raises `TypeError` (in the percent branch at the division; in the other
branch later, at the final `sum` over adjustments - the quote aborts
either way). -/
def adjAmount (base : ℚ) (atype : String) (v : AdjVal) :
    Except PmsError ℚ :=
  match v with
  | .num q => .ok (if atype = "percent" then base * (q / 100) else q)
  | .text => .error .typeError

/-- Amount contributed by a last-minute rule: always
`base * (adjustment_value / 100)`, with no look at `adjustment_type`.
A non-numeric value raises `TypeError` at the division. -/
def lmAmount (base : ℚ) (v : AdjVal) : Except PmsError ℚ :=
  match v with
  | .num q => .ok (base * (q / 100))
  | .text => .error .typeError

/-- Seasonal resolver (lines 283-295): amount of the selected seasonal
rule, 0 when no rule covers the date. -/
def seasonalRes (st : PMSState) (pid : Nat) (d : Int) (base : ℚ) :
    Except PmsError ℚ :=
  match selectSeasonal st.seasonal_pricing pid d with
  | none => .ok 0
  | some r => adjAmount base r.adjustment_type r.adjustment_value

/-- Day-of-week resolver (lines 297-309). -/
def dowRes (st : PMSState) (pid : Nat) (d : Int) (base : ℚ) :
    Except PmsError ℚ :=
  match lookupDow st.day_of_week_pricing pid (weekday d) with
  | none => .ok 0
  | some r => adjAmount base r.adjustment_type r.adjustment_value

/-- Last-minute resolver (lines 311-322): skipped entirely for past dates
(`days_until < 0`), otherwise the amount of the selected rule. -/
def lastMinuteRes (st : PMSState) (pid : Nat) (days_until : Int) (base : ℚ) :
    Except PmsError ℚ :=
  if days_until < 0 then .ok 0
  else
    match selectLastMinute st.last_minute_pricing pid days_until with
    | none => .ok 0
    | some r => lmAmount base r.adjustment_value

/-- The `adjustments` dict of `calculate_price` (unrounded amounts),
plus the resolved base. `orphan` is initialised to 0 and never written. -/
structure QuoteParts where
  base : ℚ
  seasonal : ℚ
  dow : ℚ
  last_minute : ℚ
  orphan : ℚ
deriving DecidableEq, Repr

/-- Run the three implemented resolvers in source order (a `TypeError`
from an earlier resolver propagates before later ones run). -/
def quoteParts (st : PMSState) (u : UnitRow) (p : PropertyRow)
    (target today : Int) : Except PmsError QuoteParts :=
  match seasonalRes st p.id target (computeBase u p),
        dowRes st p.id target (computeBase u p),
        lastMinuteRes st p.id (target - today) (computeBase u p) with
  | .ok s, .ok w, .ok l => .ok ⟨computeBase u p, s, w, l, 0⟩
  | .error e, _, _ => .error e
  | .ok _, .error e, _ => .error e
  | .ok _, .ok _, .error e => .error e

/-- `adjusted_price = base_price + sum(adjustments)` (lines 326-332),
unrounded. -/
def adjustedOf (qp : QuoteParts) : ℚ :=
  qp.base + (qp.seasonal + qp.dow + qp.last_minute + qp.orphan)

/-- The result dict of `calculate_price`, with every currency field
rounded to 2 decimals exactly as the source rounds it. -/
structure PriceQuote where
  unit_id : Nat
  date : Int
  base_price : ℚ
  seasonal : ℚ
  day_of_week : ℚ
  last_minute : ℚ
  orphan_day : ℚ
  adjusted_price : ℚ
  final_price : ℚ
  price_source : String
deriving DecidableEq, Repr

/-- Assemble the result dict (lines 326-348): clamp with
`max(min_price, min(max_price, adjusted))` where the bounds come from the
parent property through Python `or` defaults (0 and 999999), then round
each field for output. -/
def mkQuote (uid : Nat) (d : Int) (u : UnitRow) (p : PropertyRow)
    (qp : QuoteParts) : PriceQuote :=
  let adjusted := adjustedOf qp
  let min_price := pyOr p.min_price 0
  let max_price := pyOr p.max_price 999999
  let final_price := pyMax min_price (pyMin max_price adjusted)
  { unit_id := uid
    date := d
    base_price := round2 qp.base
    seasonal := round2 qp.seasonal
    day_of_week := round2 qp.dow
    last_minute := round2 qp.last_minute
    orphan_day := round2 qp.orphan
    adjusted_price := round2 adjusted
    final_price := round2 final_price
    price_source := if u.inherit_parent_pricing then "smart_pricing" else "manual" }

/-- `calculate_price(unit_id, target_date)` (lines 242-348). Returns
`.ok none` when the unit/property join finds no row (Python returns
`None`), `.error` when a malformed rule raises, `.ok (some quote)`
otherwise. -/
def calculate_price (st : PMSState) (uid : Nat) (target today : Int) :
    Except PmsError (Option PriceQuote) :=
  match lookupUnit st uid with
  | none => .ok none
  | some u =>
    match lookupProperty st u.property_id with
    | none => .ok none
    | some p =>
      match quoteParts st u p target today with
      | .error e => .error e
      | .ok qp => .ok (some (mkQuote uid target u p qp))

/-- The per-unit price computed by `_cascade_pricing_to_units`
(lines 160-169): the same modifier formula as the inheriting branch of
`calculate_price`, applied to a given parent base price. -/
def unitCascadePrice (base_price : ℚ) (u : UnitRow) : ℚ :=
  let modifier := pyOr u.price_modifier 0
  if u.price_modifier_type = "percent" then base_price * (1 + modifier / 100)
  else base_price + modifier

/-- `_update_unit_calendar_base_price` (lines 411-423): overwrite
`base_price` on the unit's calendar entries from today onward. -/
def updateUnitCalendarBasePrice (cal : List CalendarEntry) (uid : Nat)
    (base_price : ℚ) (today : Int) : List CalendarEntry :=
  cal.map (fun e =>
    if e.unit_id == uid && decide (today ≤ e.calendar_date) then
      { e with base_price := some base_price }
    else e)

/-- The loop body of `_cascade_pricing_to_units` (lines 160-172): for an
active inheriting unit, push the modifier-adjusted parent base price into
the unit's future calendar entries. A `NULL` parent base with an
inheriting unit raises `TypeError` (`None * ...`). -/
def cascadeStep (p : PropertyRow) (today : Int) (acc : PMSState)
    (u : UnitRow) : Except PmsError PMSState :=
  if u.inherit_parent_pricing then
    match p.base_price with
    | none => .error .typeError
    | some b =>
      .ok { acc with pricing_calendar :=
        (updateUnitCalendarBasePrice acc.pricing_calendar u.id
          (unitCascadePrice b u) today) }
  else .ok acc

/-- `_cascade_pricing_to_units` (lines 151-172): fetch the property (a
missing property is a silent no-op) and run `cascadeStep` over
`get_units_by_property` (the active units of the property). -/
def cascade_pricing_to_units (st : PMSState) (pid : Nat) (today : Int) :
    Except PmsError PMSState :=
  match lookupProperty st pid with
  | none => .ok st
  | some p =>
    (st.units.filter (fun u => u.property_id == pid && u.is_active)).foldlM
      (cascadeStep p today) st

/-- `update_property_pricing` (lines 92-106): overwrite the property's
`base_price`, `min_price` and `max_price` with exactly the arguments
passed (the optional bounds default to `None`), then cascade to child
units. The `updated_at` timestamp column is not modelled. -/
def update_property_pricing (st : PMSState) (pid : Nat) (base_price : ℚ)
    (min_price max_price : Option ℚ) (today : Int) :
    Except PmsError PMSState :=
  cascade_pricing_to_units
    { st with properties := st.properties.map (fun p =>
      if p.id == pid then
        { p with base_price := some base_price, min_price := min_price, max_price := max_price }
      else p) }
    pid today

/-- The loop of `generate_pricing_calendar` (lines 373-379): quotes for
`k` consecutive dates starting at `start`, skipping dates where
`calculate_price` returned `None` and propagating a raised `TypeError`. -/
def calendarLoop (st : PMSState) (uid : Nat) (today : Int) :
    Int → Nat → Except PmsError (List PriceQuote)
  | _, 0 => .ok []
  | start, Nat.succ k =>
    match calculate_price st uid start today with
    | .error e => .error e
    | .ok q =>
      match calendarLoop st uid today (start + 1) k with
      | .error e => .error e
      | .ok rest => .ok (match q with | some qd => qd :: rest | none => rest)

/-- `generate_pricing_calendar` (lines 350-379): default 365 days from
today, `end_date` (inclusive) overrides `days`, and the span is capped at
`MAX_CALENDAR_DAYS` (Python `range` of a negative count is empty, hence
`toNat`). -/
def generate_pricing_calendar (st : PMSState) (uid : Nat) (days : Option Int)
    (start_date end_date : Option Int) (today : Int) :
    Except PmsError (List PriceQuote) :=
  let days0 := match days with | none => DEFAULT_CALENDAR_DAYS | some n => n
  let start := match start_date with | none => today | some s => s
  let days1 := match end_date with | none => days0 | some e => e - start + 1
  let days2 := if MAX_CALENDAR_DAYS < days1 then MAX_CALENDAR_DAYS else days1
  calendarLoop st uid today start days2.toNat

/-- The `final_price` field of the quote `calculate_price` returns, with
the source's `if price_data:` convention: 0 when no quote was returned. -/
def quotedFinal (st : PMSState) (uid : Nat) (d today : Int) : ℚ :=
  match calculate_price st uid d today with
  | .ok (some q) => q.final_price
  | _ => 0

/-- The price-summing loop of `create_reservation` (lines 483-488):
`total_price += price_data['final_price']` over `k` nights from `start`,
propagating a raised `TypeError`. -/
def sumNights (st : PMSState) (uid : Nat) (today : Int) :
    Int → Nat → Except PmsError ℚ
  | _, 0 => .ok 0
  | start, Nat.succ k =>
    match calculate_price st uid start today with
    | .error e => .error e
    | .ok q =>
      match sumNights st uid today (start + 1) k with
      | .error e => .error e
      | .ok rest =>
        .ok ((match q with | some qd => qd.final_price | none => 0) + rest)

/-- `INSERT OR REPLACE INTO pricing_calendar (unit_id, calendar_date,
is_available, is_blocked, block_reason) VALUES (?, ?, 0, 1, 'reservation')`:
the old row for that (unit, date) key is dropped and the fresh row has all
unnamed columns at their defaults (`base_price` becomes NULL). -/
def upsertBlock (cal : List CalendarEntry) (uid : Nat) (d : Int) :
    List CalendarEntry :=
  (cal.filter (fun e => !(e.unit_id == uid && e.calendar_date == d))) ++
    [{ unit_id := uid, calendar_date := d, base_price := none,
       is_available := false, is_blocked := true,
       block_reason := some "reservation" }]

/-- The calendar-blocking loop of `create_reservation` (lines 507-512). -/
def blockDates (cal : List CalendarEntry) (uid : Nat) :
    Int → Nat → List CalendarEntry
  | _, 0 => cal
  | start, Nat.succ k => blockDates (upsertBlock cal uid start) uid (start + 1) k

/-- `create_reservation` (lines 472-517): `nights = check_out - check_in`
with no validation, `total_price` summed over `range(nights)` (empty for
non-positive nights), then the reservation row is inserted and the covered
dates are blocked. Returns the new state and the inserted row id. -/
def create_reservation (st : PMSState) (uid : Nat)
    (check_in check_out today : Int) : Except PmsError (PMSState × Nat) :=
  match sumNights st uid today check_in (check_out - check_in).toNat with
  | .error e => .error e
  | .ok total =>
    .ok ({ st with
            reservations := st.reservations ++
              [{ id := st.next_reservation_id, unit_id := uid,
                 check_in := check_in, check_out := check_out,
                 nights := check_out - check_in, total_price := total }],
            next_reservation_id := st.next_reservation_id + 1,
            pricing_calendar := blockDates st.pricing_calendar uid check_in
              (check_out - check_in).toNat },
          st.next_reservation_id)

/-- All rule rows of a property carry numeric `adjustment_value`s (the
well-formedness under which a quote cannot raise `TypeError`). -/
def rulesNumeric (st : PMSState) (pid : Nat) : Bool :=
  st.seasonal_pricing.all
    (fun r => !(r.property_id == pid) || r.adjustment_value.isNum) &&
  st.day_of_week_pricing.all
    (fun r => !(r.property_id == pid) || r.adjustment_value.isNum) &&
  st.last_minute_pricing.all
    (fun r => !(r.property_id == pid) || r.adjustment_value.isNum)

/-- Demo database mirroring the script at the bottom of the source:
a $250 property with bounds [$150, $500], an inheriting unit at +20
percent, and a Saturday +20 percent day-of-week rule. -/
def dbBasicProp : PropertyRow :=
  { id := 1, base_price := some 250, min_price := some 150,
    max_price := some 500 }

/-- The inheriting demo unit (+20 percent modifier). -/
def dbBasicUnit : UnitRow :=
  { id := 1, property_id := 1, unit_name := "Oceanfront Suite 101",
    inherit_parent_pricing := true, price_modifier := some 20,
    price_modifier_type := "percent", custom_base_price := none,
    is_active := true }

/-- The demo database state. -/
def dbBasic : PMSState :=
  { properties := [dbBasicProp], units := [dbBasicUnit],
    seasonal_pricing := [],
    day_of_week_pricing :=
      [{ property_id := 1, day_of_week := 5, adjustment_type := "percent",
         adjustment_value := .num 20 }],
    last_minute_pricing := [], reservations := [], pricing_calendar := [],
    next_reservation_id := 1 }

/-- A property whose configured bounds are inverted: min 500 above max
100. -/
def dbInvertedProp : PropertyRow :=
  { id := 1, base_price := some 250, min_price := some 500,
    max_price := some 100 }

/-- Database with the inverted-bounds property and a plain inheriting
unit. -/
def dbInverted : PMSState :=
  { properties := [dbInvertedProp],
    units :=
      [{ id := 1, property_id := 1, unit_name := "U1",
         inherit_parent_pricing := true, price_modifier := none,
         price_modifier_type := "percent", custom_base_price := none,
         is_active := true }],
    seasonal_pricing := [], day_of_week_pricing := [],
    last_minute_pricing := [], reservations := [], pricing_calendar := [],
    next_reservation_id := 1 }

/-- Database with two overlapping seasonal rules (+30 percent over days
100-200 and +10 percent over days 150-250) for the demo property. -/
def dbSeasonal : PMSState :=
  { properties := [dbBasicProp], units := [dbBasicUnit],
    seasonal_pricing :=
      [{ property_id := 1, start_date := 100, end_date := 200,
         adjustment_type := "percent", adjustment_value := .num 30 },
       { property_id := 1, start_date := 150, end_date := 250,
         adjustment_type := "percent", adjustment_value := .num 10 }],
    day_of_week_pricing := [], last_minute_pricing := [],
    reservations := [], pricing_calendar := [], next_reservation_id := 1 }

/-- Database with two last-minute rules (thresholds 3 and 7 days; the
3-day rule deliberately carries a non-percent `adjustment_type`). -/
def dbLastMinute : PMSState :=
  { properties := [dbBasicProp], units := [dbBasicUnit],
    seasonal_pricing := [], day_of_week_pricing := [],
    last_minute_pricing :=
      [{ property_id := 1, days_before_checkin := 3, adjustment_type := "fixed", adjustment_value := .num (-10) },
       { property_id := 1, days_before_checkin := 7, adjustment_type := "percent", adjustment_value := .num (-20) }],
    reservations := [], pricing_calendar := [], next_reservation_id := 1 }

/-- The database state after booking the demo unit for nights 10 and 11
(two nights at $300 each, calendar blocked). -/
def dbBasicAfterRes : PMSState :=
  { dbBasic with
    reservations := [{ id := 1, unit_id := 1, check_in := 10, check_out := 12, nights := 2, total_price := 600 }],
    next_reservation_id := 2,
    pricing_calendar :=
      [{ unit_id := 1, calendar_date := 10, base_price := none, is_available := false, is_blocked := true, block_reason := some "reservation" },
       { unit_id := 1, calendar_date := 11, base_price := none, is_available := false, is_blocked := true, block_reason := some "reservation" }] }

/-- Database whose only seasonal rule carries a malformed (non-numeric)
`adjustment_value`, alongside a perfectly well-formed day-of-week rule. -/
def dbMalformed : PMSState :=
  { properties := [dbBasicProp], units := [dbBasicUnit],
    seasonal_pricing := [{ property_id := 1, start_date := 100, end_date := 200, adjustment_type := "percent", adjustment_value := .text }],
    day_of_week_pricing := [{ property_id := 1, day_of_week := 5, adjustment_type := "percent", adjustment_value := .num 20 }],
    last_minute_pricing := [], reservations := [], pricing_calendar := [],
    next_reservation_id := 1 }

/-- The fold inside `pickBest` returns either its accumulator or a list
element. -/
theorem foldl_pick_mem {α : Type} (le : α → α → Bool) (xs : List α) (acc : α) :
    xs.foldl (fun best y => if le y best then best else y) acc = acc ∨
      xs.foldl (fun best y => if le y best then best else y) acc ∈ xs := by
  induction xs generalizing acc with
  | nil => exact Or.inl rfl
  | cons z zs ih =>
    simp only [List.foldl_cons]
    rcases ih (if le z acc then acc else z) with h | h
    · rw [h]
      split
      · exact Or.inl rfl
      · exact Or.inr (List.mem_cons_self _ _)
    · exact Or.inr (List.mem_cons_of_mem _ h)

/-- The fold inside `pickBest` returns an upper bound (for a transitive,
total boolean preorder) of the accumulator and all list elements. -/
theorem foldl_pick_le {α : Type} (le : α → α → Bool)
    (htrans : ∀ a b c, le a b = true → le b c = true → le a c = true)
    (htot : ∀ a b, le a b = true ∨ le b a = true)
    (xs : List α) (acc : α) :
    le acc (xs.foldl (fun best y => if le y best then best else y) acc) = true ∧
      ∀ z ∈ xs,
        le z (xs.foldl (fun best y => if le y best then best else y) acc) = true := by
  induction xs generalizing acc with
  | nil =>
    refine ⟨?_, by simp⟩
    rcases htot acc acc with h | h <;> exact h
  | cons z zs ih =>
    simp only [List.foldl_cons]
    by_cases hz : le z acc = true
    · rw [if_pos hz]
      rcases ih acc with ⟨h1, h2⟩
      refine ⟨h1, ?_⟩
      intro y hy
      rcases List.mem_cons.mp hy with rfl | hy
      · exact htrans _ _ _ hz h1
      · exact h2 y hy
    · rw [if_neg hz]
      rcases ih z with ⟨h1, h2⟩
      have hza : le acc z = true := by
        rcases htot z acc with h | h
        · exact absurd h hz
        · exact h
      refine ⟨htrans _ _ _ hza h1, ?_⟩
      intro y hy
      rcases List.mem_cons.mp hy with rfl | hy
      · exact h1
      · exact h2 y hy

/-- A row returned by `pickBest` comes from the candidate list. -/
theorem pickBest_mem {α : Type} (le : α → α → Bool) (l : List α) (r : α)
    (h : pickBest le l = some r) : r ∈ l := by
  cases l with
  | nil => simp [pickBest] at h
  | cons x xs =>
    simp only [pickBest, Option.some.injEq] at h
    rcases foldl_pick_mem le xs x with h0 | h0
    · rw [h0] at h
      exact h ▸ List.mem_cons_self _ _
    · exact h ▸ List.mem_cons_of_mem _ h0

/-- A row returned by `pickBest` is maximal among the candidates. -/
theorem pickBest_max {α : Type} (le : α → α → Bool)
    (htrans : ∀ a b c, le a b = true → le b c = true → le a c = true)
    (htot : ∀ a b, le a b = true ∨ le b a = true)
    (l : List α) (r : α) (h : pickBest le l = some r) :
    ∀ z ∈ l, le z r = true := by
  cases l with
  | nil => simp [pickBest] at h
  | cons x xs =>
    simp only [pickBest, Option.some.injEq] at h
    intro z hz
    rcases foldl_pick_le le htrans htot xs x with ⟨h1, h2⟩
    rcases List.mem_cons.mp hz with rfl | hzs
    · exact h ▸ h1
    · exact h ▸ h2 z hzs

/-- `pickBest` returns a row whenever there is a candidate. -/
theorem pickBest_isSome {α : Type} (le : α → α → Bool) (l : List α) (hne : l ≠ []) :
    ∃ r, pickBest le l = some r := by
  cases l with
  | nil => exact absurd rfl hne
  | cons x xs => exact ⟨_, rfl⟩

/-- `AdjVal.leB` is total. -/
theorem AdjVal.leB_total (a b : AdjVal) : leB a b = true ∨ leB b a = true := by
  cases a with
  | num x =>
    cases b with
    | num y =>
      simp only [leB, decide_eq_true_eq]
      exact le_total x y
    | text => exact Or.inl rfl
  | text =>
    cases b with
    | num y => exact Or.inr rfl
    | text => exact Or.inl rfl

/-- `AdjVal.leB` is transitive. -/
theorem AdjVal.leB_trans (a b c : AdjVal) (h1 : leB a b = true)
    (h2 : leB b c = true) : leB a c = true := by
  cases a <;> cases b <;> cases c <;>
    simp only [leB, decide_eq_true_eq] at h1 h2 ⊢ <;> try trivial
  exact le_trans h1 h2

/-- A selected seasonal rule is a covering rule of the property. -/
theorem selectSeasonal_sound (rules : List SeasonalRule) (pid : Nat) (d : Int)
    (r : SeasonalRule) (h : selectSeasonal rules pid d = some r) :
    r ∈ rules ∧ coversDate r pid d = true := by
  have hm := pickBest_mem _ _ _ h
  exact ⟨(List.mem_filter.mp hm).1, (List.mem_filter.mp hm).2⟩

/-- A selected seasonal rule has the highest `adjustment_value` among all
covering rules. -/
theorem selectSeasonal_max (rules : List SeasonalRule) (pid : Nat) (d : Int)
    (r : SeasonalRule) (h : selectSeasonal rules pid d = some r) :
    ∀ r2 ∈ rules, coversDate r2 pid d = true →
      AdjVal.leB r2.adjustment_value r.adjustment_value = true := by
  intro r2 hr2 hc2
  refine pickBest_max _ ?_ ?_ _ _ h r2 (List.mem_filter.mpr ⟨hr2, hc2⟩)
  · intro a b c h1 h2
    exact AdjVal.leB_trans _ _ _ h1 h2
  · intro a b
    exact AdjVal.leB_total _ _

/-- When some rule covers the date, `selectSeasonal` returns a rule. -/
theorem selectSeasonal_isSome (rules : List SeasonalRule) (pid : Nat) (d : Int)
    (r : SeasonalRule) (hr : r ∈ rules) (hc : coversDate r pid d = true) :
    ∃ rs, selectSeasonal rules pid d = some rs := by
  apply pickBest_isSome
  intro hnil
  have : r ∈ rules.filter (fun r => coversDate r pid d) :=
    List.mem_filter.mpr ⟨hr, hc⟩
  rw [hnil] at this
  exact absurd this (List.not_mem_nil r)

/-- A selected last-minute rule is a qualifying rule of the property. -/
theorem selectLastMinute_sound (rules : List LastMinuteRule) (pid : Nat)
    (du : Int) (r : LastMinuteRule) (h : selectLastMinute rules pid du = some r) :
    r ∈ rules ∧ lmMatches r pid du = true := by
  have hm := pickBest_mem _ _ _ h
  exact ⟨(List.mem_filter.mp hm).1, (List.mem_filter.mp hm).2⟩

/-- A selected last-minute rule has the smallest `days_before_checkin`
among all qualifying rules. -/
theorem selectLastMinute_min (rules : List LastMinuteRule) (pid : Nat)
    (du : Int) (r : LastMinuteRule) (h : selectLastMinute rules pid du = some r) :
    ∀ r2 ∈ rules, lmMatches r2 pid du = true →
      r.days_before_checkin ≤ r2.days_before_checkin := by
  intro r2 hr2 hc2
  have := pickBest_max
    (fun a b : LastMinuteRule =>
      decide (b.days_before_checkin ≤ a.days_before_checkin))
    (by
      intro a b c h1 h2
      simp only [decide_eq_true_eq] at h1 h2 ⊢
      exact le_trans h2 h1)
    (by
      intro a b
      simp only [decide_eq_true_eq]
      exact le_total _ _)
    _ _ h r2 (List.mem_filter.mpr ⟨hr2, hc2⟩)
  simpa using this

/-- When some rule qualifies, `selectLastMinute` returns a rule. -/
theorem selectLastMinute_isSome (rules : List LastMinuteRule) (pid : Nat)
    (du : Int) (r : LastMinuteRule) (hr : r ∈ rules)
    (hc : lmMatches r pid du = true) :
    ∃ rs, selectLastMinute rules pid du = some rs := by
  apply pickBest_isSome
  intro hnil
  have : r ∈ rules.filter (fun r => lmMatches r pid du) :=
    List.mem_filter.mpr ⟨hr, hc⟩
  rw [hnil] at this
  exact absurd this (List.not_mem_nil r)

/-- Under `rulesNumeric`, a seasonal rule of the property carries a
numeric value. -/
theorem rulesNumeric_seasonal (st : PMSState) (pid : Nat)
    (h : rulesNumeric st pid = true) (r : SeasonalRule)
    (hr : r ∈ st.seasonal_pricing) (hpid : r.property_id = pid) :
    ∃ v, r.adjustment_value = AdjVal.num v := by
  simp only [rulesNumeric, Bool.and_eq_true, List.all_eq_true] at h
  have := h.1.1 r hr
  rw [hpid] at this
  simp only [beq_self_eq_true, Bool.not_true, Bool.false_or] at this
  cases hv : r.adjustment_value with
  | num v => exact ⟨v, rfl⟩
  | text => rw [hv] at this; exact absurd this (by simp [AdjVal.isNum])

/-- Under `rulesNumeric`, a day-of-week rule of the property carries a
numeric value. -/
theorem rulesNumeric_dow (st : PMSState) (pid : Nat)
    (h : rulesNumeric st pid = true) (r : DayOfWeekRule)
    (hr : r ∈ st.day_of_week_pricing) (hpid : r.property_id = pid) :
    ∃ v, r.adjustment_value = AdjVal.num v := by
  simp only [rulesNumeric, Bool.and_eq_true, List.all_eq_true] at h
  have := h.1.2 r hr
  rw [hpid] at this
  simp only [beq_self_eq_true, Bool.not_true, Bool.false_or] at this
  cases hv : r.adjustment_value with
  | num v => exact ⟨v, rfl⟩
  | text => rw [hv] at this; exact absurd this (by simp [AdjVal.isNum])

/-- Under `rulesNumeric`, a last-minute rule of the property carries a
numeric value. -/
theorem rulesNumeric_lm (st : PMSState) (pid : Nat)
    (h : rulesNumeric st pid = true) (r : LastMinuteRule)
    (hr : r ∈ st.last_minute_pricing) (hpid : r.property_id = pid) :
    ∃ v, r.adjustment_value = AdjVal.num v := by
  simp only [rulesNumeric, Bool.and_eq_true, List.all_eq_true] at h
  have := h.2 r hr
  rw [hpid] at this
  simp only [beq_self_eq_true, Bool.not_true, Bool.false_or] at this
  cases hv : r.adjustment_value with
  | num v => exact ⟨v, rfl⟩
  | text => rw [hv] at this; exact absurd this (by simp [AdjVal.isNum])

/-- `rhe` returns either the floor or the floor plus one. -/
theorem rhe_eq_floor_or_succ (q : ℚ) : rhe q = ⌊q⌋ ∨ rhe q = ⌊q⌋ + 1 := by
  unfold rhe
  split
  · exact Or.inl rfl
  · split
    · exact Or.inr rfl
    · split
      · exact Or.inl rfl
      · exact Or.inr rfl

/-- An integer lower bound survives round-half-to-even. -/
theorem int_le_rhe (a : ℤ) (q : ℚ) (h : (a : ℚ) ≤ q) : a ≤ rhe q := by
  have hfl : a ≤ ⌊q⌋ := Int.le_floor.mpr h
  rcases rhe_eq_floor_or_succ q with h0 | h0 <;> rw [h0] <;> omega

/-- An integer upper bound survives round-half-to-even. -/
theorem rhe_le_int (a : ℤ) (q : ℚ) (h : q ≤ (a : ℚ)) : rhe q ≤ a := by
  have hfl : ⌊q⌋ ≤ a := by
    have := Int.floor_le_floor h
    rwa [Int.floor_intCast] at this
  unfold rhe
  split
  · exact hfl
  · rename_i hlt
    push_neg at hlt
    have hhalf : (⌊q⌋ : ℚ) + 1/2 ≤ q := by linarith
    have hfq : (⌊q⌋ : ℚ) < (a : ℚ) := by linarith
    have : ⌊q⌋ < a := by exact_mod_cast hfq
    split
    · omega
    · split
      · exact hfl
      · omega

/-- The effective lower bound survives output rounding when it is a
whole-cent amount. -/
theorem round2_ge_cents (a : ℤ) (q : ℚ) (h : (a : ℚ) / 100 ≤ q) :
    (a : ℚ) / 100 ≤ round2 q := by
  unfold round2
  have h100 : (a : ℚ) ≤ 100 * q := by linarith
  have := int_le_rhe a (100 * q) h100
  have hc : (a : ℚ) ≤ ((rhe (100 * q) : ℤ) : ℚ) := by exact_mod_cast this
  linarith

/-- The effective upper bound survives output rounding when it is a
whole-cent amount. -/
theorem round2_le_cents (a : ℤ) (q : ℚ) (h : q ≤ (a : ℚ) / 100) :
    round2 q ≤ (a : ℚ) / 100 := by
  unfold round2
  have h100 : 100 * q ≤ (a : ℚ) := by linarith
  have := rhe_le_int a (100 * q) h100
  have hc : ((rhe (100 * q) : ℤ) : ℚ) ≤ (a : ℚ) := by exact_mod_cast this
  linarith

/-- `pyMax` is an upper bound of its first argument. -/
theorem left_le_pyMax (a b : ℚ) : a ≤ pyMax a b := by
  unfold pyMax
  split
  · exact le_of_lt (by assumption)
  · exact le_refl a

/-- `pyMax` of two values below a bound stays below it. -/
theorem pyMax_le (a b c : ℚ) (h1 : a ≤ c) (h2 : b ≤ c) : pyMax a b ≤ c := by
  unfold pyMax
  split <;> assumption

/-- `pyMin` is a lower bound of its first argument. -/
theorem pyMin_le_left (a b : ℚ) : pyMin a b ≤ a := by
  unfold pyMin
  split
  · exact le_of_lt (by assumption)
  · exact le_refl a

/-- `coversDate` pins the rule to the property. -/
theorem coversDate_pid (r : SeasonalRule) (pid : Nat) (d : Int)
    (h : coversDate r pid d = true) : r.property_id = pid := by
  simp only [coversDate, Bool.and_eq_true, beq_iff_eq] at h
  exact h.1.1

/-- `lmMatches` pins the rule to the property. -/
theorem lmMatches_pid (r : LastMinuteRule) (pid : Nat) (du : Int)
    (h : lmMatches r pid du = true) : r.property_id = pid := by
  simp only [lmMatches, Bool.and_eq_true, beq_iff_eq] at h
  exact h.1

/-- Under numeric rules, the seasonal resolver cannot raise. -/
theorem seasonalRes_isOk (st : PMSState) (pid : Nat) (d : Int) (base : ℚ)
    (hnum : rulesNumeric st pid = true) :
    ∃ s, seasonalRes st pid d base = .ok s := by
  unfold seasonalRes
  cases hsel : selectSeasonal st.seasonal_pricing pid d with
  | none => exact ⟨0, rfl⟩
  | some r =>
    obtain ⟨hr, hc⟩ := selectSeasonal_sound _ _ _ _ hsel
    obtain ⟨v, hv⟩ := rulesNumeric_seasonal st pid hnum r hr (coversDate_pid _ _ _ hc)
    show ∃ s, adjAmount base r.adjustment_type r.adjustment_value = .ok s
    rw [hv]
    exact ⟨_, rfl⟩

/-- Under numeric rules, the day-of-week resolver cannot raise. -/
theorem dowRes_isOk (st : PMSState) (pid : Nat) (d : Int) (base : ℚ)
    (hnum : rulesNumeric st pid = true) :
    ∃ s, dowRes st pid d base = .ok s := by
  unfold dowRes
  cases hsel : lookupDow st.day_of_week_pricing pid (weekday d) with
  | none => exact ⟨0, rfl⟩
  | some r =>
    have hpred := List.find?_some hsel
    have hmem := List.mem_of_find?_eq_some hsel
    simp only [Bool.and_eq_true, beq_iff_eq] at hpred
    obtain ⟨v, hv⟩ := rulesNumeric_dow st pid hnum r hmem hpred.1
    show ∃ s, adjAmount base r.adjustment_type r.adjustment_value = .ok s
    rw [hv]
    exact ⟨_, rfl⟩

/-- Under numeric rules, the last-minute resolver cannot raise. -/
theorem lastMinuteRes_isOk (st : PMSState) (pid : Nat) (du : Int) (base : ℚ)
    (hnum : rulesNumeric st pid = true) :
    ∃ s, lastMinuteRes st pid du base = .ok s := by
  unfold lastMinuteRes
  by_cases hneg : du < 0
  · rw [if_pos hneg]
    exact ⟨0, rfl⟩
  · rw [if_neg hneg]
    cases hsel : selectLastMinute st.last_minute_pricing pid du with
    | none => exact ⟨0, rfl⟩
    | some r =>
      obtain ⟨hr, hc⟩ := selectLastMinute_sound _ _ _ _ hsel
      obtain ⟨v, hv⟩ := rulesNumeric_lm st pid hnum r hr (lmMatches_pid _ _ _ hc)
      show ∃ s, lmAmount base r.adjustment_value = .ok s
      rw [hv]
      exact ⟨_, rfl⟩

/-- Decomposition of a successful `quoteParts` run into its resolvers. -/
theorem quoteParts_spec (st : PMSState) (u : UnitRow) (p : PropertyRow)
    (d t : Int) (qp : QuoteParts) (h : quoteParts st u p d t = .ok qp) :
    qp.base = computeBase u p ∧
    seasonalRes st p.id d (computeBase u p) = .ok qp.seasonal ∧
    dowRes st p.id d (computeBase u p) = .ok qp.dow ∧
    lastMinuteRes st p.id (d - t) (computeBase u p) = .ok qp.last_minute ∧
    qp.orphan = 0 := by
  unfold quoteParts at h
  split at h
  · rename_i s w l hs hw hl
    cases h
    exact ⟨rfl, hs, hw, hl, rfl⟩
  · simp at h
  · simp at h
  · simp at h

/-- Under numeric rules, `quoteParts` succeeds. -/
theorem quoteParts_isOk (st : PMSState) (u : UnitRow) (p : PropertyRow)
    (d t : Int) (hnum : rulesNumeric st p.id = true) :
    ∃ qp, quoteParts st u p d t = .ok qp := by
  obtain ⟨s, hs⟩ := seasonalRes_isOk st p.id d (computeBase u p) hnum
  obtain ⟨w, hw⟩ := dowRes_isOk st p.id d (computeBase u p) hnum
  obtain ⟨l, hl⟩ := lastMinuteRes_isOk st p.id (d - t) (computeBase u p) hnum
  refine ⟨⟨computeBase u p, s, w, l, 0⟩, ?_⟩
  unfold quoteParts
  rw [hs, hw, hl]

/-- For an existing unit with an existing parent and numeric rules,
`calculate_price` returns the assembled quote. -/
theorem calculate_price_some (st : PMSState) (uid : Nat) (d t : Int)
    (u : UnitRow) (p : PropertyRow)
    (hu : lookupUnit st uid = some u)
    (hp : lookupProperty st u.property_id = some p)
    (hnum : rulesNumeric st p.id = true) :
    ∃ qp, quoteParts st u p d t = .ok qp ∧
      calculate_price st uid d t = .ok (some (mkQuote uid d u p qp)) := by
  obtain ⟨qp, hqp⟩ := quoteParts_isOk st u p d t hnum
  refine ⟨qp, hqp, ?_⟩
  simp only [calculate_price, hu, hp, hqp]

/-- Python `x or 0` on a set value is the value itself. -/
theorem pyOr_some_zero (x : ℚ) : pyOr (some x) 0 = x := by
  show (if x = 0 then 0 else x) = x
  split
  · rename_i h
    exact h.symm
  · rfl

/-- Python `None or d` is the default. -/
theorem pyOr_none (d : ℚ) : pyOr none d = d := rfl

/-- Rounding fixes zero. -/
theorem round2_zero : round2 0 = 0 := by decide

/-- The `final_price` field of the assembled quote. -/
theorem mkQuote_final_price (uid : Nat) (d : Int) (u : UnitRow)
    (p : PropertyRow) (qp : QuoteParts) :
    (mkQuote uid d u p qp).final_price =
      round2 (pyMax (pyOr p.min_price 0)
        (pyMin (pyOr p.max_price 999999) (adjustedOf qp))) := rfl

/-- The `base_price` field of the assembled quote. -/
theorem mkQuote_base_price (uid : Nat) (d : Int) (u : UnitRow)
    (p : PropertyRow) (qp : QuoteParts) :
    (mkQuote uid d u p qp).base_price = round2 qp.base := rfl

/-- The `date` field of the assembled quote. -/
theorem mkQuote_date (uid : Nat) (d : Int) (u : UnitRow) (p : PropertyRow)
    (qp : QuoteParts) : (mkQuote uid d u p qp).date = d := rfl

/-- The `seasonal` adjustment field of the assembled quote. -/
theorem mkQuote_seasonal (uid : Nat) (d : Int) (u : UnitRow) (p : PropertyRow)
    (qp : QuoteParts) : (mkQuote uid d u p qp).seasonal = round2 qp.seasonal := rfl

/-- The `last_minute` adjustment field of the assembled quote. -/
theorem mkQuote_last_minute (uid : Nat) (d : Int) (u : UnitRow)
    (p : PropertyRow) (qp : QuoteParts) :
    (mkQuote uid d u p qp).last_minute = round2 qp.last_minute := rfl

/-- The `adjusted_price` field of the assembled quote. -/
theorem mkQuote_adjusted_price (uid : Nat) (d : Int) (u : UnitRow)
    (p : PropertyRow) (qp : QuoteParts) :
    (mkQuote uid d u p qp).adjusted_price = round2 (adjustedOf qp) := rfl

/-- `computeBase` on an inheriting unit. -/
theorem computeBase_inherit (u : UnitRow) (p : PropertyRow)
    (h : u.inherit_parent_pricing = true) :
    computeBase u p =
      (if u.price_modifier_type = "percent" then
        pyOr p.base_price 0 * (1 + pyOr u.price_modifier 0 / 100)
      else pyOr p.base_price 0 + pyOr u.price_modifier 0) := by
  unfold computeBase
  rw [if_pos h]

/-- `computeBase` on a non-inheriting unit. -/
theorem computeBase_custom (u : UnitRow) (p : PropertyRow)
    (h : u.inherit_parent_pricing = false) :
    computeBase u p = pyOr u.custom_base_price 0 := by
  unfold computeBase
  rw [h]
  simp

/-- A successful `calculate_price` under existing unit and property is an
assembled quote. -/
theorem calculate_price_ok_shape (st : PMSState) (uid : Nat) (d t : Int)
    (u : UnitRow) (p : PropertyRow) (r : Option PriceQuote)
    (hu : lookupUnit st uid = some u)
    (hp : lookupProperty st u.property_id = some p)
    (h : calculate_price st uid d t = .ok r) :
    ∃ qp, quoteParts st u p d t = .ok qp ∧ r = some (mkQuote uid d u p qp) := by
  simp only [calculate_price, hu, hp] at h
  split at h
  · simp at h
  · rename_i qp hqp
    cases h
    exact ⟨qp, hqp, rfl⟩

/-- When the property's base price is set, the cascade loop succeeds and
touches only the pricing calendar. -/
theorem cascade_fold_ok (p : PropertyRow) (b : ℚ) (hb : p.base_price = some b)
    (today : Int) (l : List UnitRow) (acc : PMSState) :
    ∃ st2, l.foldlM (cascadeStep p today) acc = .ok st2 ∧
      st2.properties = acc.properties ∧
      st2.units = acc.units ∧
      st2.seasonal_pricing = acc.seasonal_pricing ∧
      st2.day_of_week_pricing = acc.day_of_week_pricing ∧
      st2.last_minute_pricing = acc.last_minute_pricing ∧
      st2.reservations = acc.reservations ∧
      st2.next_reservation_id = acc.next_reservation_id := by
  induction l generalizing acc with
  | nil => exact ⟨acc, rfl, rfl, rfl, rfl, rfl, rfl, rfl, rfl⟩
  | cons x xs ih =>
    have hstep : ∃ acc2, cascadeStep p today acc x = .ok acc2 ∧
        acc2.properties = acc.properties ∧
        acc2.units = acc.units ∧
        acc2.seasonal_pricing = acc.seasonal_pricing ∧
        acc2.day_of_week_pricing = acc.day_of_week_pricing ∧
        acc2.last_minute_pricing = acc.last_minute_pricing ∧
        acc2.reservations = acc.reservations ∧
        acc2.next_reservation_id = acc.next_reservation_id := by
      unfold cascadeStep
      by_cases hi : x.inherit_parent_pricing = true
      · rw [if_pos hi, hb]
        exact ⟨_, rfl, rfl, rfl, rfl, rfl, rfl, rfl, rfl⟩
      · rw [if_neg hi]
        exact ⟨acc, rfl, rfl, rfl, rfl, rfl, rfl, rfl, rfl⟩
    obtain ⟨acc2, hstep, e1, e2, e3, e4, e5, e6, e7⟩ := hstep
    obtain ⟨st2, hfold, f1, f2, f3, f4, f5, f6, f7⟩ := ih acc2
    refine ⟨st2, ?_, ?_, ?_, ?_, ?_, ?_, ?_, ?_⟩
    · rw [List.foldlM_cons, hstep]
      exact hfold
    · rw [f1, e1]
    · rw [f2, e2]
    · rw [f3, e3]
    · rw [f4, e4]
    · rw [f5, e5]
    · rw [f6, e6]
    · rw [f7, e7]

/-- `rulesNumeric` only reads the three rule tables. -/
theorem rulesNumeric_congr (st1 st2 : PMSState) (pid : Nat)
    (h1 : st2.seasonal_pricing = st1.seasonal_pricing)
    (h2 : st2.day_of_week_pricing = st1.day_of_week_pricing)
    (h3 : st2.last_minute_pricing = st1.last_minute_pricing) :
    rulesNumeric st2 pid = rulesNumeric st1 pid := by
  unfold rulesNumeric
  rw [h1, h2, h3]

/-- Looking up the updated property after `update_property_pricing`
rewrites exactly the three price columns. -/
theorem lookupProperty_after_update (props : List PropertyRow) (pid : Nat)
    (p : PropertyRow) (hp : props.find? (fun q => q.id == pid) = some p)
    (b : ℚ) (mn mx : Option ℚ) :
    (props.map (fun q =>
      if q.id == pid then
        { q with base_price := some b, min_price := mn, max_price := mx }
      else q)).find? (fun q => q.id == pid) =
      some { p with base_price := some b, min_price := mn, max_price := mx } := by
  rw [List.find?_map]
  have hcomp : ((fun q : PropertyRow => q.id == pid) ∘ (fun q =>
      if q.id == pid then
        { q with base_price := some b, min_price := mn, max_price := mx }
      else q)) = (fun q : PropertyRow => q.id == pid) := by
    funext q
    by_cases hq : (q.id == pid) = true
    · simp only [Function.comp_apply, if_pos hq]
    · simp only [Function.comp_apply, if_neg hq]
  rw [hcomp, hp]
  have hpid : (p.id == pid) = true := by
    have := List.find?_some (p := fun q : PropertyRow => q.id == pid) hp
    simpa using this
  show Option.map _ (some p) = _
  rw [Option.map_some']
  rw [if_pos hpid]

/-- `update_property_pricing` on an existing property: succeeds, stores
exactly the given `base_price`/`min_price`/`max_price` on that property,
and leaves units and rule tables unchanged. -/
theorem update_property_pricing_spec (st : PMSState) (pid : Nat) (b : ℚ)
    (mn mx : Option ℚ) (today : Int) (p : PropertyRow)
    (hp : lookupProperty st pid = some p) :
    ∃ st2, update_property_pricing st pid b mn mx today = .ok st2 ∧
      lookupProperty st2 pid =
        some { p with base_price := some b, min_price := mn, max_price := mx } ∧
      st2.units = st.units ∧
      st2.seasonal_pricing = st.seasonal_pricing ∧
      st2.day_of_week_pricing = st.day_of_week_pricing ∧
      st2.last_minute_pricing = st.last_minute_pricing := by
  have hp1 : lookupProperty
      { st with properties := st.properties.map (fun q =>
        if q.id == pid then
          { q with base_price := some b, min_price := mn, max_price := mx }
        else q) } pid =
      some { p with base_price := some b, min_price := mn, max_price := mx } :=
    lookupProperty_after_update st.properties pid p hp b mn mx
  unfold update_property_pricing cascade_pricing_to_units
  rw [hp1]
  obtain ⟨st2, hfold, f1, f2, f3, f4, f5, f6, f7⟩ :=
    cascade_fold_ok { p with base_price := some b, min_price := mn, max_price := mx } b rfl today
      (st.units.filter (fun u => u.property_id == pid && u.is_active))
      { st with properties := st.properties.map (fun q =>
        if q.id == pid then
          { q with base_price := some b, min_price := mn, max_price := mx }
        else q) }
  refine ⟨st2, hfold, ?_, ?_, ?_, ?_, ?_⟩
  · show st2.properties.find? (fun q => q.id == pid) = _
    rw [f1]
    exact hp1
  · rw [f2]
  · rw [f3]
  · rw [f4]
  · rw [f5]

/-- The calendar loop over an existing unit with numeric rules returns one
quote per day, dated consecutively from the start date. -/
theorem calendarLoop_spec (st : PMSState) (uid : Nat) (today : Int)
    (u : UnitRow) (p : PropertyRow)
    (hu : lookupUnit st uid = some u)
    (hp : lookupProperty st u.property_id = some p)
    (hnum : rulesNumeric st p.id = true) :
    ∀ (k : Nat) (start : Int),
      ∃ l, calendarLoop st uid today start k = .ok l ∧
        l.length = k ∧
        ∀ i (hi : i < l.length), (l.get ⟨i, hi⟩).date = start + i := by
  intro k
  induction k with
  | zero =>
    intro start
    exact ⟨[], rfl, rfl, by intro i hi; simp at hi⟩
  | succ n ih =>
    intro start
    obtain ⟨rest, hrest, hlen, hdates⟩ := ih (start + 1)
    obtain ⟨qp, hqp, hcp⟩ := calculate_price_some st uid start today u p hu hp hnum
    refine ⟨mkQuote uid start u p qp :: rest, ?_, ?_, ?_⟩
    · unfold calendarLoop
      rw [hcp, hrest]
    · simp [hlen]
    · intro i hi
      cases i with
      | zero =>
        simp [mkQuote_date]
      | succ j =>
        have hj : j < rest.length := by
          simp at hi
          omega
        have := hdates j hj
        simp only [List.get_cons_succ]
        rw [this]
        push_cast
        ring

/-- A successful `sumNights` run is the sum of the per-night quoted final
prices, and every night's `calculate_price` call succeeded. -/
theorem sumNights_spec (st : PMSState) (uid : Nat) (today : Int) :
    ∀ (k : Nat) (start : Int) (S : ℚ),
      sumNights st uid today start k = .ok S →
      S = ((List.range k).map
        (fun i : Nat => quotedFinal st uid (start + (i : Int)) today)).sum ∧
      ∀ i : Nat, i < k → ∃ r, calculate_price st uid (start + (i : Int)) today = .ok r := by
  intro k
  induction k with
  | zero =>
    intro start S h
    refine ⟨?_, by intro i hi; omega⟩
    unfold sumNights at h
    cases h
    simp
  | succ n ih =>
    intro start S h
    unfold sumNights at h
    split at h
    · simp at h
    · rename_i q hq
      split at h
      · simp at h
      · rename_i rest hrest
        cases h
        obtain ⟨hsum, hok⟩ := ih (start + 1) rest hrest
        constructor
        · rw [hsum]
          rw [List.range_succ_eq_map, List.map_cons, List.map_map, List.sum_cons]
          congr 1
          · cases q with
            | none => simp only [quotedFinal, Nat.cast_zero, add_zero, hq]
            | some qd => simp only [quotedFinal, Nat.cast_zero, add_zero, hq]
          · congr 1
            refine List.map_eq_map_iff.mpr ?_
            intro a ha
            simp only [Function.comp_apply]
            have harg : start + 1 + (a : Int) = start + ((Nat.succ a : ℕ) : Int) := by
              push_cast
              ring
            rw [harg]
        · intro i hi
          cases i with
          | zero =>
            refine ⟨q, ?_⟩
            have : start + ((0 : Nat) : Int) = start := by norm_num
            rw [this]
            exact hq
          | succ j =>
            obtain ⟨r, hr⟩ := hok j (by omega)
            refine ⟨r, ?_⟩
            have : start + ((j + 1 : Nat) : Int) = (start + 1) + (j : Int) := by
              push_cast
              ring
            rw [this]
            exact hr

/-- Decomposition of a successful `create_reservation` call: the row id,
the appended reservation row, and the summed total. -/
theorem create_reservation_spec (st : PMSState) (uid : Nat)
    (ci co today : Int) (st2 : PMSState) (rid : Nat)
    (h : create_reservation st uid ci co today = .ok (st2, rid)) :
    ∃ S, sumNights st uid today ci (co - ci).toNat = .ok S ∧
      rid = st.next_reservation_id ∧
      st2.reservations = st.reservations ++
        [{ id := rid, unit_id := uid, check_in := ci, check_out := co,
           nights := co - ci, total_price := S }] := by
  unfold create_reservation at h
  split at h
  · simp at h
  · rename_i S hS
    cases h
    exact ⟨S, hS, rfl, rfl⟩

/-- C1: for every existing unit and target date, the quote satisfies
`min_price ≤ final_price ≤ max_price`, with an unset (or zero) `min_price`
defaulting to 0 and an unset (or zero) `max_price` defaulting to 999999 —
amended: this holds provided the effective bounds satisfy `min ≤ max` and
are whole-cent amounts (the code clamps with `max(min, min(max, x))`,
which exceeds `max_price` whenever `min_price > max_price`, and the final
2-decimal rounding can leave the bracket at sub-cent bounds). -/
theorem C1_final_price_within_bounds (st : PMSState) (uid : Nat)
    (d today : Int) (u : UnitRow) (p : PropertyRow) (a b : ℤ)
    (hu : lookupUnit st uid = some u)
    (hp : lookupProperty st u.property_id = some p)
    (hnum : rulesNumeric st p.id = true)
    (hmn : pyOr p.min_price 0 = (a : ℚ) / 100)
    (hmx : pyOr p.max_price 999999 = (b : ℚ) / 100)
    (hle : pyOr p.min_price 0 ≤ pyOr p.max_price 999999) :
    ∃ q, calculate_price st uid d today = .ok (some q) ∧
      pyOr p.min_price 0 ≤ q.final_price ∧
      q.final_price ≤ pyOr p.max_price 999999 := by
  obtain ⟨qp, hqp, hcp⟩ := calculate_price_some st uid d today u p hu hp hnum
  refine ⟨_, hcp, ?_, ?_⟩
  · rw [mkQuote_final_price]
    have h1 : pyOr p.min_price 0 ≤
        pyMax (pyOr p.min_price 0)
          (pyMin (pyOr p.max_price 999999) (adjustedOf qp)) :=
      left_le_pyMax _ _
    rw [hmn] at h1 ⊢
    exact round2_ge_cents a _ h1
  · rw [mkQuote_final_price]
    have h2 : pyMax (pyOr p.min_price 0)
        (pyMin (pyOr p.max_price 999999) (adjustedOf qp)) ≤
        pyOr p.max_price 999999 :=
      pyMax_le _ _ _ hle (pyMin_le_left _ _)
    rw [hmx] at h2 ⊢
    exact round2_le_cents b _ h2

/-- C1 counterexample: with configured bounds min 500 and max 100
(min above max), the returned `final_price` is 500, violating
`final_price ≤ max_price` — so the claim as stated (for every
combination) is false. -/
theorem C1_counterexample :
    quotedFinal dbInverted 1 6 0 = 500 ∧
    dbInvertedProp.min_price = some 500 ∧
    dbInvertedProp.max_price = some 100 ∧
    ¬(quotedFinal dbInverted 1 6 0 ≤ pyOr dbInvertedProp.max_price 999999) := by
  decide

/-- C1 witness: the amended bound invariant at the concrete demo state. -/
theorem C1_witness :
    (rulesNumeric dbBasic 1 = true ∧
      pyOr dbBasicProp.min_price 0 ≤ pyOr dbBasicProp.max_price 999999) ∧
    (∃ q, calculate_price dbBasic 1 6 0 = .ok (some q) ∧
      pyOr dbBasicProp.min_price 0 ≤ q.final_price ∧
      q.final_price ≤ pyOr dbBasicProp.max_price 999999) :=
  ⟨⟨by decide, by decide⟩,
    C1_final_price_within_bounds dbBasic 1 6 0 dbBasicUnit dbBasicProp
      15000 50000 (by decide) (by decide) (by decide) (by decide) (by decide)
      (by decide)⟩

/-- C2: the base price of a quote: an inheriting unit takes the parent's
current `base_price` with the unit modifier applied (`percent` multiplies
by `1 + m/100`, anything else adds `m`); a non-inheriting unit takes its
`custom_base_price`, defaulting to 0 when unset; and `calculate_price`
reports exactly this base (rounded for output). -/
theorem C2_base_price_resolution (u : UnitRow) (p : PropertyRow)
    (pb m cb : ℚ) (st : PMSState) (uid : Nat) (d today : Int) :
    (u.inherit_parent_pricing = true → p.base_price = some pb →
      u.price_modifier = some m →
      computeBase u p =
        (if u.price_modifier_type = "percent" then pb * (1 + m / 100)
         else pb + m)) ∧
    (u.inherit_parent_pricing = false → u.custom_base_price = some cb →
      computeBase u p = cb) ∧
    (u.inherit_parent_pricing = false → u.custom_base_price = none →
      computeBase u p = 0) ∧
    (lookupUnit st uid = some u → lookupProperty st u.property_id = some p →
      rulesNumeric st p.id = true →
      ∃ q, calculate_price st uid d today = .ok (some q) ∧
        q.base_price = round2 (computeBase u p)) := by
  refine ⟨?_, ?_, ?_, ?_⟩
  · intro h1 h2 h3
    rw [computeBase_inherit u p h1, h2, h3, pyOr_some_zero, pyOr_some_zero]
  · intro h1 h2
    rw [computeBase_custom u p h1, h2, pyOr_some_zero]
  · intro h1 h2
    rw [computeBase_custom u p h1, h2]
    rfl
  · intro hu hp hnum
    obtain ⟨qp, hqp, hcp⟩ := calculate_price_some st uid d today u p hu hp hnum
    obtain ⟨hbase, h2, h3, h4, h5⟩ := quoteParts_spec st u p d today qp hqp
    exact ⟨_, hcp, by rw [mkQuote_base_price, hbase]⟩

/-- C2 witness: the demo inheriting unit resolves to the $300 base of the
spec's concrete scenario. -/
theorem C2_witness :
    dbBasicUnit.inherit_parent_pricing = true ∧
    computeBase dbBasicUnit dbBasicProp = 250 * (1 + 20 / 100) := by
  constructor
  · decide
  · have h := (C2_base_price_resolution dbBasicUnit dbBasicProp 250 20 0
      dbBasic 1 0 0).1 rfl rfl rfl
    rw [h]
    decide

/-- C3: when at least one seasonal rule of the property covers the target
date (inclusive window), exactly one rule is applied: a covering rule
whose `adjustment_value` is highest among all covering rules, and its
amount is `base * value/100` for a `percent` rule and the raw value
otherwise. -/
theorem C3_seasonal_selection (st : PMSState) (uid : Nat) (d today : Int)
    (u : UnitRow) (p : PropertyRow) (r : SeasonalRule)
    (hu : lookupUnit st uid = some u)
    (hp : lookupProperty st u.property_id = some p)
    (hnum : rulesNumeric st p.id = true)
    (hr : r ∈ st.seasonal_pricing) (hc : coversDate r p.id d = true) :
    ∃ rsel v q,
      selectSeasonal st.seasonal_pricing p.id d = some rsel ∧
      rsel ∈ st.seasonal_pricing ∧
      coversDate rsel p.id d = true ∧
      (∀ r2 ∈ st.seasonal_pricing, coversDate r2 p.id d = true →
        ∀ v2, r2.adjustment_value = AdjVal.num v2 → v2 ≤ v) ∧
      rsel.adjustment_value = AdjVal.num v ∧
      calculate_price st uid d today = .ok (some q) ∧
      q.seasonal = round2 (if rsel.adjustment_type = "percent"
        then computeBase u p * (v / 100) else v) := by
  obtain ⟨rsel, hsel⟩ := selectSeasonal_isSome st.seasonal_pricing p.id d r hr hc
  obtain ⟨hmem, hcov⟩ := selectSeasonal_sound _ _ _ _ hsel
  obtain ⟨v, hv⟩ :=
    rulesNumeric_seasonal st p.id hnum rsel hmem (coversDate_pid _ _ _ hcov)
  obtain ⟨qp, hqp, hcp⟩ := calculate_price_some st uid d today u p hu hp hnum
  obtain ⟨hbase, hseas, h3, h4, h5⟩ := quoteParts_spec st u p d today qp hqp
  refine ⟨rsel, v, _, hsel, hmem, hcov, ?_, hv, hcp, ?_⟩
  · intro r2 hr2 hc2 v2 hv2
    have hle := selectSeasonal_max _ _ _ _ hsel r2 hr2 hc2
    rw [hv2, hv] at hle
    simpa [AdjVal.leB] using hle
  · have hres : seasonalRes st p.id d (computeBase u p) =
        .ok (if rsel.adjustment_type = "percent"
          then computeBase u p * (v / 100) else v) := by
      unfold seasonalRes
      rw [hsel]
      show adjAmount (computeBase u p) rsel.adjustment_type
        rsel.adjustment_value = _
      rw [hv]
      rfl
    rw [hres] at hseas
    rw [mkQuote_seasonal, ← Except.ok.inj hseas]

/-- C3 witness: with overlapping +30 and +10 percent rules both covering
day 160, the +30 rule is selected and contributes 90 on the $300 base. -/
theorem C3_witness :
    (rulesNumeric dbSeasonal 1 = true ∧
      coversDate { property_id := 1, start_date := 100, end_date := 200, adjustment_type := "percent", adjustment_value := .num 30 } 1 160 = true) ∧
    (∃ rsel v q,
      selectSeasonal dbSeasonal.seasonal_pricing 1 160 = some rsel ∧
      rsel ∈ dbSeasonal.seasonal_pricing ∧
      coversDate rsel 1 160 = true ∧
      (∀ r2 ∈ dbSeasonal.seasonal_pricing, coversDate r2 1 160 = true →
        ∀ v2, r2.adjustment_value = AdjVal.num v2 → v2 ≤ v) ∧
      rsel.adjustment_value = AdjVal.num v ∧
      calculate_price dbSeasonal 1 160 0 = .ok (some q) ∧
      q.seasonal = round2 (if rsel.adjustment_type = "percent"
        then computeBase dbBasicUnit dbBasicProp * (v / 100) else v)) :=
  ⟨⟨by decide, by decide⟩,
    C3_seasonal_selection dbSeasonal 1 160 0 dbBasicUnit dbBasicProp
      { property_id := 1, start_date := 100, end_date := 200, adjustment_type := "percent", adjustment_value := .num 30 }
      (by decide) (by decide) (by decide) (by decide) (by decide)⟩

/-- C4: with `days_until = target_date - today`: a negative `days_until`
gets no last-minute adjustment; otherwise, among the property's rules with
`days_before_checkin ≥ days_until` the one with the smallest
`days_before_checkin` is selected (none applied when no rule qualifies),
and its amount is always `base * (adjustment_value / 100)`, regardless of
the rule's stored `adjustment_type`. -/
theorem C4_last_minute_selection (st : PMSState) (uid : Nat) (d today : Int)
    (u : UnitRow) (p : PropertyRow)
    (hu : lookupUnit st uid = some u)
    (hp : lookupProperty st u.property_id = some p)
    (hnum : rulesNumeric st p.id = true) :
    (d - today < 0 →
      ∃ q, calculate_price st uid d today = .ok (some q) ∧
        q.last_minute = 0) ∧
    (0 ≤ d - today →
      (∀ r ∈ st.last_minute_pricing, lmMatches r p.id (d - today) = false) →
      ∃ q, calculate_price st uid d today = .ok (some q) ∧
        q.last_minute = 0) ∧
    (0 ≤ d - today →
      ∀ r ∈ st.last_minute_pricing, lmMatches r p.id (d - today) = true →
      ∃ rsel v q,
        selectLastMinute st.last_minute_pricing p.id (d - today) = some rsel ∧
        rsel ∈ st.last_minute_pricing ∧
        lmMatches rsel p.id (d - today) = true ∧
        (∀ r2 ∈ st.last_minute_pricing, lmMatches r2 p.id (d - today) = true →
          rsel.days_before_checkin ≤ r2.days_before_checkin) ∧
        rsel.adjustment_value = AdjVal.num v ∧
        calculate_price st uid d today = .ok (some q) ∧
        q.last_minute = round2 (computeBase u p * (v / 100))) := by
  obtain ⟨qp, hqp, hcp⟩ := calculate_price_some st uid d today u p hu hp hnum
  obtain ⟨hbase, h2, h3, hlm, h5⟩ := quoteParts_spec st u p d today qp hqp
  refine ⟨?_, ?_, ?_⟩
  · intro hneg
    have hres : lastMinuteRes st p.id (d - today) (computeBase u p) = .ok 0 := by
      unfold lastMinuteRes
      rw [if_pos hneg]
    rw [hres] at hlm
    refine ⟨_, hcp, ?_⟩
    rw [mkQuote_last_minute, ← Except.ok.inj hlm, round2_zero]
  · intro hge hnone
    have hfil : st.last_minute_pricing.filter
        (fun r => lmMatches r p.id (d - today)) = [] := by
      rw [List.filter_eq_nil_iff]
      intro r hr
      rw [hnone r hr]
      simp
    have hres : lastMinuteRes st p.id (d - today) (computeBase u p) = .ok 0 := by
      unfold lastMinuteRes
      rw [if_neg (not_lt.mpr hge)]
      unfold selectLastMinute
      rw [hfil]
      rfl
    rw [hres] at hlm
    refine ⟨_, hcp, ?_⟩
    rw [mkQuote_last_minute, ← Except.ok.inj hlm, round2_zero]
  · intro hge r hr hmatch
    obtain ⟨rsel, hsel⟩ :=
      selectLastMinute_isSome st.last_minute_pricing p.id (d - today) r hr hmatch
    obtain ⟨hmem, hcov⟩ := selectLastMinute_sound _ _ _ _ hsel
    obtain ⟨v, hv⟩ :=
      rulesNumeric_lm st p.id hnum rsel hmem (lmMatches_pid _ _ _ hcov)
    have hres : lastMinuteRes st p.id (d - today) (computeBase u p) =
        .ok (computeBase u p * (v / 100)) := by
      unfold lastMinuteRes
      rw [if_neg (not_lt.mpr hge), hsel]
      show lmAmount (computeBase u p) rsel.adjustment_value = _
      rw [hv]
      rfl
    rw [hres] at hlm
    refine ⟨rsel, v, _, hsel, hmem, hcov,
      (fun r2 hr2 hc2 => selectLastMinute_min _ _ _ _ hsel r2 hr2 hc2),
      hv, hcp, ?_⟩
    rw [mkQuote_last_minute, ← Except.ok.inj hlm]

/-- C4 witness: two days before check-in, the 3-day rule (smallest
qualifying threshold, stored with a non-percent type) is selected and
still contributes `base * (-10/100)`. -/
theorem C4_witness :
    ((0 : Int) ≤ 102 - 100 ∧ rulesNumeric dbLastMinute 1 = true) ∧
    (∃ rsel v q,
      selectLastMinute dbLastMinute.last_minute_pricing 1 (102 - 100) = some rsel ∧
      rsel ∈ dbLastMinute.last_minute_pricing ∧
      lmMatches rsel 1 (102 - 100) = true ∧
      (∀ r2 ∈ dbLastMinute.last_minute_pricing,
        lmMatches r2 1 (102 - 100) = true →
        rsel.days_before_checkin ≤ r2.days_before_checkin) ∧
      rsel.adjustment_value = AdjVal.num v ∧
      calculate_price dbLastMinute 1 102 100 = .ok (some q) ∧
      q.last_minute = round2 (computeBase dbBasicUnit dbBasicProp * (v / 100))) :=
  ⟨⟨by decide, by decide⟩,
    (C4_last_minute_selection dbLastMinute 1 102 100 dbBasicUnit dbBasicProp
      (by decide) (by decide) (by decide)).2.2 (by decide)
      { property_id := 1, days_before_checkin := 3, adjustment_type := "fixed", adjustment_value := .num (-10) }
      (by decide) (by decide)⟩

/-- C5: for an existing unit, start date `D` and day count `N`,
`generate_pricing_calendar` returns exactly `min N 730` quotes (all `N`
when `N` is within the 730-day cap, exactly 730 — truncated, not
rejected — beyond it) with dates `D, D+1, ...` in strictly increasing
order. -/
theorem C5_calendar_length_and_dates (st : PMSState) (uid : Nat)
    (D today : Int) (u : UnitRow) (p : PropertyRow)
    (hu : lookupUnit st uid = some u)
    (hp : lookupProperty st u.property_id = some p)
    (hnum : rulesNumeric st p.id = true) (N : Nat) :
    ∃ l, generate_pricing_calendar st uid (some (N : Int)) (some D) none today = .ok l ∧
      l.length = min N 730 ∧
      (∀ i (hi : i < l.length), (l.get ⟨i, hi⟩).date = D + i) ∧
      (∀ i j (hi : i < l.length) (hj : j < l.length), i < j →
        (l.get ⟨i, hi⟩).date < (l.get ⟨j, hj⟩).date) := by
  obtain ⟨l, hl, hlen, hdates⟩ :=
    calendarLoop_spec st uid today u p hu hp hnum
      ((if MAX_CALENDAR_DAYS < (N : Int) then MAX_CALENDAR_DAYS else (N : Int)).toNat) D
  refine ⟨l, ?_, ?_, hdates, ?_⟩
  · exact hl
  · rw [hlen]
    unfold MAX_CALENDAR_DAYS
    split
    · rename_i h
      have hN : 730 < N := by exact_mod_cast h
      omega
    · rename_i h
      push_neg at h
      have hN : N ≤ 730 := by exact_mod_cast h
      omega
  · intro i j hi hj hij
    rw [hdates i hi, hdates j hj]
    omega

/-- C5 witness: a 3-day calendar from day 10 for the demo unit has
exactly 3 entries dated 10, 11, 12. -/
theorem C5_witness :
    (0 < 3 ∧ rulesNumeric dbBasic 1 = true) ∧
    (∃ l, generate_pricing_calendar dbBasic 1 (some ((3 : Nat) : Int)) (some 10) none 0 = .ok l ∧
      l.length = min 3 730 ∧
      (∀ i (hi : i < l.length), (l.get ⟨i, hi⟩).date = 10 + i) ∧
      (∀ i j (hi : i < l.length) (hj : j < l.length), i < j →
        (l.get ⟨i, hi⟩).date < (l.get ⟨j, hj⟩).date)) :=
  ⟨⟨by decide, by decide⟩,
    C5_calendar_length_and_dates dbBasic 1 10 0 dbBasicUnit dbBasicProp
      (by decide) (by decide) (by decide) 3⟩

/-- C6: every reservation created by `create_reservation` stores a
`total_price` equal to the sum, over each night in `[check_in,
check_out)`, of the `final_price` that `calculate_price` returns for that
unit and date at creation time. -/
theorem C6_reservation_total (st : PMSState) (uid : Nat)
    (ci co today : Int) (st2 : PMSState) (rid : Nat)
    (u : UnitRow) (p : PropertyRow)
    (hu : lookupUnit st uid = some u)
    (hp : lookupProperty st u.property_id = some p)
    (h : create_reservation st uid ci co today = .ok (st2, rid)) :
    ∃ res, res ∈ st2.reservations ∧ res.id = rid ∧ res.unit_id = uid ∧
      res.check_in = ci ∧ res.check_out = co ∧
      res.total_price = ((List.range (co - ci).toNat).map
        (fun i : Nat => quotedFinal st uid (ci + (i : Int)) today)).sum ∧
      (∀ i : Nat, i < (co - ci).toNat →
        ∃ q, calculate_price st uid (ci + (i : Int)) today = .ok (some q) ∧
          quotedFinal st uid (ci + (i : Int)) today = q.final_price) := by
  obtain ⟨S, hS, hrid, hres⟩ := create_reservation_spec st uid ci co today st2 rid h
  obtain ⟨hsum, hok⟩ := sumNights_spec st uid today (co - ci).toNat ci S hS
  refine ⟨{ id := rid, unit_id := uid, check_in := ci, check_out := co, nights := co - ci, total_price := S },
    ?_, rfl, rfl, rfl, rfl, hsum, ?_⟩
  · rw [hres]
    exact List.mem_append_right _ (List.mem_singleton.mpr rfl)
  · intro i hi
    obtain ⟨r, hr⟩ := hok i hi
    obtain ⟨qp, hqp, hshape⟩ :=
      calculate_price_ok_shape st uid (ci + (i : Int)) today u p r hu hp hr
    subst hshape
    refine ⟨_, hr, ?_⟩
    unfold quotedFinal
    rw [hr]

/-- C6 witness: the stored $600 total for the two-night demo booking is
the sum of the two independently quoted $300 nightly prices. -/
theorem C6_witness :
    create_reservation dbBasic 1 10 12 0 = .ok (dbBasicAfterRes, 1) ∧
    (∃ res, res ∈ dbBasicAfterRes.reservations ∧ res.id = 1 ∧ res.unit_id = 1 ∧
      res.check_in = 10 ∧ res.check_out = 12 ∧
      res.total_price = ((List.range ((12 - 10 : Int)).toNat).map
        (fun i : Nat => quotedFinal dbBasic 1 (10 + (i : Int)) 0)).sum ∧
      (∀ i : Nat, i < ((12 - 10 : Int)).toNat →
        ∃ q, calculate_price dbBasic 1 (10 + (i : Int)) 0 = .ok (some q) ∧
          quotedFinal dbBasic 1 (10 + (i : Int)) 0 = q.final_price)) :=
  ⟨by decide,
    C6_reservation_total dbBasic 1 10 12 0 dbBasicAfterRes 1 dbBasicUnit
      dbBasicProp (by decide) (by decide) (by decide)⟩

/-- C7 (amended): `create_reservation` performs no range validation: for
every input with `check_out ≤ check_in` it still succeeds, persisting a
reservation with `nights = check_out - check_in ≤ 0` and `total_price = 0`
(the empty per-night sum), and blocking no calendar dates; no
`InvalidRange` failure exists in the code. -/
theorem C7_no_range_validation (st : PMSState) (uid : Nat)
    (ci co today : Int) (h : co ≤ ci) :
    create_reservation st uid ci co today =
      .ok ({ st with
        reservations := st.reservations ++ [{ id := st.next_reservation_id, unit_id := uid, check_in := ci, check_out := co, nights := co - ci, total_price := 0 }],
        next_reservation_id := st.next_reservation_id + 1 },
        st.next_reservation_id) := by
  have h0 : (co - ci).toNat = 0 := by omega
  unfold create_reservation
  rw [h0]
  rfl

/-- C7 counterexample: booking with `check_in = check_out = 5` is not
rejected — the call succeeds and persists a reservation with `nights = 0`,
contradicting the claimed `InvalidRange` failure. -/
theorem C7_counterexample :
    create_reservation dbBasic 1 5 5 0 =
      .ok ({ dbBasic with reservations := [{ id := 1, unit_id := 1, check_in := 5, check_out := 5, nights := 0, total_price := 0 }], next_reservation_id := 2 }, 1) ∧
    (create_reservation dbBasic 1 5 5 0).toOption.map
      (fun x => x.1.reservations.length) = some 1 := by
  exact ⟨by decide, by decide⟩

/-- C7 witness: the amended no-validation behaviour at equal dates. -/
theorem C7_witness :
    (5 : Int) ≤ 5 ∧
    create_reservation dbBasic 1 5 5 0 =
      .ok ({ dbBasic with
        reservations := dbBasic.reservations ++ [{ id := dbBasic.next_reservation_id, unit_id := 1, check_in := 5, check_out := 5, nights := 5 - 5, total_price := 0 }],
        next_reservation_id := dbBasic.next_reservation_id + 1 },
        dbBasic.next_reservation_id) :=
  ⟨le_refl 5, C7_no_range_validation dbBasic 1 5 5 0 (le_refl 5)⟩

/-- C8 (amended): a malformed (non-numeric) `adjustment_value` on the
seasonal rule consulted by `calculate_price` raises an uncaught
`TypeError` that aborts the whole quote; the rule is not skipped and no
quote is produced from the remaining well-formed rules. -/
theorem C8_malformed_rule_aborts_quote (st : PMSState) (uid : Nat)
    (d today : Int) (u : UnitRow) (p : PropertyRow) (r : SeasonalRule)
    (hu : lookupUnit st uid = some u)
    (hp : lookupProperty st u.property_id = some p)
    (hsel : selectSeasonal st.seasonal_pricing p.id d = some r)
    (hmal : r.adjustment_value = AdjVal.text) :
    calculate_price st uid d today = .error .typeError := by
  have hs : seasonalRes st p.id d (computeBase u p) = .error .typeError := by
    unfold seasonalRes
    rw [hsel]
    show adjAmount (computeBase u p) r.adjustment_type r.adjustment_value = _
    rw [hmal]
    rfl
  have hqp : quoteParts st u p d today = .error .typeError := by
    unfold quoteParts
    rw [hs]
  simp only [calculate_price, hu, hp, hqp]

/-- C8 counterexample: with one malformed seasonal rule covering day 150
(and a well-formed day-of-week rule present), the whole quote aborts with
a type error instead of skipping the bad rule and completing. -/
theorem C8_counterexample :
    calculate_price dbMalformed 1 150 0 = .error .typeError ∧
    dbMalformed.day_of_week_pricing.all
      (fun r => r.adjustment_value.isNum) = true := by
  exact ⟨by decide, by decide⟩

/-- C8 witness: the amended abort behaviour at the concrete malformed
state. -/
theorem C8_witness :
    selectSeasonal dbMalformed.seasonal_pricing 1 150 =
      some { property_id := 1, start_date := 100, end_date := 200, adjustment_type := "percent", adjustment_value := .text } ∧
    calculate_price dbMalformed 1 150 0 = .error .typeError :=
  ⟨by decide,
    C8_malformed_rule_aborts_quote dbMalformed 1 150 0 dbBasicUnit dbBasicProp
      { property_id := 1, start_date := 100, end_date := 200, adjustment_type := "percent", adjustment_value := .text }
      (by decide) (by decide) (by decide) (by decide)⟩

/-- C9: after `update_property_pricing` sets a new parent `base_price`,
the next `calculate_price` call for an inheriting unit of that property
computes its quoted base from the new parent base (modifier applied),
never from any stored per-unit base. -/
theorem C9_cascade_fresh_base (st : PMSState) (pid : Nat) (b : ℚ)
    (mn mx : Option ℚ) (today d t : Int) (uid : Nat)
    (u : UnitRow) (p : PropertyRow)
    (hp : lookupProperty st pid = some p)
    (hu : lookupUnit st uid = some u)
    (hpid : u.property_id = pid)
    (hinh : u.inherit_parent_pricing = true)
    (hnum : rulesNumeric st pid = true) :
    ∃ st2 p2 q, update_property_pricing st pid b mn mx today = .ok st2 ∧
      lookupProperty st2 pid = some p2 ∧
      p2.base_price = some b ∧
      calculate_price st2 uid d t = .ok (some q) ∧
      q.base_price = round2 (if u.price_modifier_type = "percent"
        then b * (1 + pyOr u.price_modifier 0 / 100)
        else b + pyOr u.price_modifier 0) := by
  obtain ⟨st2, hupd, hlook, hunits, hs1, hs2, hs3⟩ :=
    update_property_pricing_spec st pid b mn mx today p hp
  have hu2 : lookupUnit st2 uid = some u := by
    unfold lookupUnit
    rw [hunits]
    exact hu
  have hp2 : lookupProperty st2 u.property_id =
      some { p with base_price := some b, min_price := mn, max_price := mx } := by
    rw [hpid]
    exact hlook
  have hpid' : p.id = pid := by
    have := List.find?_some (p := fun q : PropertyRow => q.id == pid) hp
    simpa using this
  have hnum2 : rulesNumeric st2
      ({ p with base_price := some b, min_price := mn, max_price := mx } : PropertyRow).id = true := by
    show rulesNumeric st2 p.id = true
    rw [rulesNumeric_congr st st2 p.id hs1 hs2 hs3, hpid']
    exact hnum
  obtain ⟨qp, hqp, hcp⟩ := calculate_price_some st2 uid d t u _ hu2 hp2 hnum2
  obtain ⟨hbase, h2, h3, h4, h5⟩ := quoteParts_spec st2 u _ d t qp hqp
  refine ⟨st2, _, _, hupd, hlook, rfl, hcp, ?_⟩
  rw [mkQuote_base_price, hbase, computeBase_inherit u _ hinh]
  have hb2 : ({ p with base_price := some b, min_price := mn, max_price := mx } : PropertyRow).base_price = some b := rfl
  rw [hb2, pyOr_some_zero]

/-- C9 witness: raising the demo parent base to $400 makes the very next
quote for the +20 percent inheriting unit report a $480 base. -/
theorem C9_witness :
    (dbBasicUnit.inherit_parent_pricing = true ∧
      rulesNumeric dbBasic 1 = true) ∧
    (∃ st2 p2 q, update_property_pricing dbBasic 1 400 none none 0 = .ok st2 ∧
      lookupProperty st2 1 = some p2 ∧
      p2.base_price = some 400 ∧
      calculate_price st2 1 50 0 = .ok (some q) ∧
      q.base_price = round2 (if dbBasicUnit.price_modifier_type = "percent"
        then 400 * (1 + pyOr dbBasicUnit.price_modifier 0 / 100)
        else 400 + pyOr dbBasicUnit.price_modifier 0)) :=
  ⟨⟨by decide, by decide⟩,
    C9_cascade_fresh_base dbBasic 1 400 none none 0 50 0 1 dbBasicUnit
      dbBasicProp (by decide) (by decide) rfl rfl (by decide)⟩

/-- C10: `update_property_pricing` called with only a base price (both
bounds omitted, i.e. `None`) overwrites the property's stored
`min_price`/`max_price` with NULL rather than leaving them unchanged, so
every subsequent quote for its units clamps against the defaults 0 and
999999 instead of the previously configured bounds. -/
theorem C10_update_nulls_bounds (st : PMSState) (pid : Nat) (b : ℚ)
    (today d t : Int) (p : PropertyRow) (mn mx : ℚ)
    (hp : lookupProperty st pid = some p)
    (_hmn : p.min_price = some mn) (_hmx : p.max_price = some mx) :
    ∃ st2 p2, update_property_pricing st pid b none none today = .ok st2 ∧
      lookupProperty st2 pid = some p2 ∧
      p2.min_price = none ∧ p2.max_price = none ∧
      (∀ uid u, lookupUnit st2 uid = some u → u.property_id = pid →
        rulesNumeric st pid = true →
        ∃ q qp, quoteParts st2 u p2 d t = .ok qp ∧
          calculate_price st2 uid d t = .ok (some q) ∧
          q.adjusted_price = round2 (adjustedOf qp) ∧
          q.final_price = round2 (pyMax 0 (pyMin 999999 (adjustedOf qp)))) := by
  obtain ⟨st2, hupd, hlook, hunits, hs1, hs2, hs3⟩ :=
    update_property_pricing_spec st pid b none none today p hp
  have hpid' : p.id = pid := by
    have := List.find?_some (p := fun q : PropertyRow => q.id == pid) hp
    simpa using this
  refine ⟨st2, _, hupd, hlook, rfl, rfl, ?_⟩
  intro uid u hu2 hupid hnum
  have hp2 : lookupProperty st2 u.property_id =
      some { p with base_price := some b, min_price := none, max_price := none } := by
    rw [hupid]
    exact hlook
  have hnum2 : rulesNumeric st2
      ({ p with base_price := some b, min_price := none, max_price := none } : PropertyRow).id = true := by
    show rulesNumeric st2 p.id = true
    rw [rulesNumeric_congr st st2 p.id hs1 hs2 hs3, hpid']
    exact hnum
  obtain ⟨qp, hqp, hcp⟩ := calculate_price_some st2 uid d t u _ hu2 hp2 hnum2
  refine ⟨_, qp, hqp, hcp, mkQuote_adjusted_price _ _ _ _ _, ?_⟩
  rw [mkQuote_final_price]
  rfl

/-- C10 witness: updating the demo property (configured bounds
[$150, $500]) with only a base price nulls both bounds, and the next
quote clamps against 0 and 999999. -/
theorem C10_witness :
    (dbBasicProp.min_price = some 150 ∧ dbBasicProp.max_price = some 500) ∧
    (∃ st2 p2, update_property_pricing dbBasic 1 300 none none 0 = .ok st2 ∧
      lookupProperty st2 1 = some p2 ∧
      p2.min_price = none ∧ p2.max_price = none ∧
      (∀ uid u, lookupUnit st2 uid = some u → u.property_id = 1 →
        rulesNumeric dbBasic 1 = true →
        ∃ q qp, quoteParts st2 u p2 50 0 = .ok qp ∧
          calculate_price st2 uid 50 0 = .ok (some q) ∧
          q.adjusted_price = round2 (adjustedOf qp) ∧
          q.final_price = round2 (pyMax 0 (pyMin 999999 (adjustedOf qp))))) :=
  ⟨⟨rfl, rfl⟩,
    C10_update_nulls_bounds dbBasic 1 300 0 50 0 dbBasicProp 150 500
      (by decide) rfl rfl⟩
